import Mathlib

/-!
# Verification of the fast-reactor reactive library

Shallow embedding of the `fast-reactor` reactive dependency-tracking
library (`State`, `Computed`, `ReactiveList`, `Observer`, dependency
tracker) together with proofs about the claims of its specification.

The embedding mirrors the TypeScript sources:
* `src/packages/fast-reactor/state.ts` (`State`, `onValueChanged`),
* `src/packages/fast-reactor/computed.ts` (`Computed`),
* `src/packages/fast-reactor/dependency-tracker.ts` (`track`,
  `trackDependency`, `getCurrentDependent`),
* `src/packages/fast-reactor/reactive-list.ts` (`ReactiveList`),
* `src/packages/fast-reactor/observer.ts` (`Observer`).

JavaScript `Set` objects are modelled as insertion-ordered duplicate-free
lists; `===` on the primitive values used by the library is decidable
equality on `Val`.  Recursive graph walks (invalidation cascades, lazy
recomputation) are executed with an explicit fuel parameter; running out
of fuel is recorded in a `fuelOut` flag so no theorem can hold merely
because evaluation was cut short.
-/

/-- JavaScript primitive values used by the reactive library in the
claims under study (`===` is decidable equality on these). -/
inductive Val
  | undefined
  | nat (n : Nat)
  | bool (b : Bool)
  | str (s : String)
  deriving DecidableEq, Repr

/-- JavaScript truthiness of a `Val` (used by `cond`, mirroring the
ternary `c ? t : e` in a compute function). -/
def Val.truthy : Val → Bool
  | .undefined => false
  | .nat n => n ≠ 0
  | .bool b => b
  | .str s => s ≠ ""

/-- JavaScript values for the `Computed` array-helper claims: either an
array or a primitive.  Mirrors the dynamic shape `Array.isArray` tests. -/
inductive JsValue
  | arr (elements : List Val)
  | prim (v : Val)
  deriving DecidableEq, Repr

/-- `Array.isArray(value)` on a `JsValue`. -/
def JsValue.isArray : JsValue → Bool
  | .arr _ => true
  | .prim _ => false

/-- A thrown JavaScript error (`name` and `message`). -/
structure JsError where
  name : String
  message : String
  deriving DecidableEq, Repr

/-- The message of the invalid-operation error thrown by the array-only
`Computed` helpers (`computed.ts`, `ONLY_ON_COMPUTED_ARRAYS`). -/
def onlyOnComputedArrays : JsError :=
  { name := "InvalidOperationError"
    message := "This operation is only available on computed arrays" }

/-- `Computed.every` guard, from `computed.ts`: the function first runs
`if (Array.isArray(this.peek())) { throw InvalidOperationError }` and
otherwise returns a new derived `Computed` (modelled as `Unit`, since the
claims concern only when the call throws).  `current` is the value
`this.peek()` returns. -/
def Computed.every (current : JsValue) : Except JsError Unit :=
  if current.isArray then .error onlyOnComputedArrays else .ok ()

/-- `Computed.some` guard, from `computed.ts` (same inverted
`Array.isArray` test as `every`). -/
def Computed.someOp (current : JsValue) : Except JsError Unit :=
  if current.isArray then .error onlyOnComputedArrays else .ok ()

/-- `Computed.mapItems` guard, from `computed.ts`. -/
def Computed.mapItems (current : JsValue) : Except JsError Unit :=
  if current.isArray then .error onlyOnComputedArrays else .ok ()

/-- `Computed.filterItems` guard, from `computed.ts`. -/
def Computed.filterItems (current : JsValue) : Except JsError Unit :=
  if current.isArray then .error onlyOnComputedArrays else .ok ()

/-!
## Dependency tracker (`dependency-tracker.ts`)

The tracker is process-wide mutable state: a scratch set
`currentDependencies`, a stack `dependentStack` and its `length` counter.
We model it by explicit state passing.  Observables and dependents are
identified by numeric ids; `addDependent` calls made by `trackDependency`
are recorded in an append-only log.
-/

/-- JS `Set.add` on an insertion-ordered duplicate-free list: appends the
element unless it is already present. -/
def setAdd (l : List Nat) (x : Nat) : List Nat :=
  if x ∈ l then l else l ++ [x]

/-- The tracker's process-wide mutable state (`dependency-tracker.ts`
module-level variables), plus the log of `addDependent` calls it makes. -/
structure TrackerState where
  currentDependencies : List Nat
  dependentStack : List Nat
  addDependentLog : List (Nat × Nat)
  deriving DecidableEq, Repr

/-- The tracker state at process start: empty scratch set, empty stack,
nothing logged. -/
def trackerInit : TrackerState := ⟨[], [], []⟩

/-- `getCurrentDependent()`: the innermost active dependent
(`dependentStack[length - 1]`), or none when the stack is empty. -/
def Tracker.getCurrentDependent (st : TrackerState) : Option Nat :=
  st.dependentStack.getLast?

/-- `trackDependency(observable)`: no-op when no tracking session is
active (`length <= 0`); otherwise adds the observable to the scratch set
and calls `observable.addDependent(currentDependent)` (logged). -/
def Tracker.trackDependency (o : Nat) (st : TrackerState) : TrackerState :=
  if st.dependentStack.length ≤ 0 then st
  else
    match Tracker.getCurrentDependent st with
    | none => st
    | some d =>
        { st with
          currentDependencies := setAdd st.currentDependencies o
          addDependentLog := st.addDependentLog ++ [(o, d)] }

/-- What a callback passed to `track` does, as observed by the tracker: a
sequence of `trackDependency` calls (reads of observables) and nested
`track` calls that run to completion. -/
inductive TrackerOp
  | readObservable (o : Nat)
  | subtrack (d : Nat) (ops : List TrackerOp)

mutual

/-- Run one tracker-visible action of a callback. -/
def Tracker.runOp : TrackerOp → TrackerState → TrackerState
  | .readObservable o, st => Tracker.trackDependency o st
  | .subtrack d ops, st => (Tracker.track d ops st).2

/-- Run a callback's tracker-visible actions in order. -/
def Tracker.runOps : List TrackerOp → TrackerState → TrackerState
  | [], st => st
  | op :: rest, st => Tracker.runOps rest (Tracker.runOp op st)

/-- `track(dependent, callback)` from `dependency-tracker.ts`: pushes the
dependent (`dependentStack[length++] = dependent`), clears the scratch
set, runs the callback, snapshots the scratch set as the returned
`dependencies`, then in the `finally` block deletes the top stack slot,
decrements `length` (the stored dependent is never `undefined`) and
clears the scratch set again.  Returns the dependency snapshot and the
final tracker state. -/
def Tracker.track (d : Nat) (ops : List TrackerOp) (st : TrackerState) :
    List Nat × TrackerState :=
  let pushed : TrackerState :=
    { st with
      dependentStack := st.dependentStack ++ [d]
      currentDependencies := [] }
  let after := Tracker.runOps ops pushed
  (after.currentDependencies,
    { after with
      dependentStack := after.dependentStack.dropLast
      currentDependencies := [] })

end

/-- The observable ids a list of tracker actions reads at its own nesting
depth (reads inside nested `track` calls excluded). -/
def readIds : List TrackerOp → List Nat
  | [] => []
  | .readObservable o :: rest => o :: readIds rest
  | .subtrack _ _ :: rest => readIds rest

/-- Whether a list of tracker actions consists of reads only (no nested
`track` call). -/
def onlyReads : List TrackerOp → Bool
  | [] => true
  | .readObservable _ :: rest => onlyReads rest
  | .subtrack _ _ :: _ => false

theorem mem_setAdd {x y : Nat} {l : List Nat} : x ∈ setAdd l y ↔ x ∈ l ∨ x = y := by
  unfold setAdd
  split
  · rename_i h
    constructor
    · exact Or.inl
    · rintro (hx | rfl)
      · exact hx
      · exact h
  · simp

theorem Tracker.trackDependency_stack (o : Nat) (st : TrackerState) :
    (Tracker.trackDependency o st).dependentStack = st.dependentStack := by
  unfold Tracker.trackDependency
  split
  · rfl
  · split <;> rfl

mutual

theorem Tracker.runOp_stack : ∀ (op : TrackerOp) (st : TrackerState),
    (Tracker.runOp op st).dependentStack = st.dependentStack
  | .readObservable o, st => by
      simp only [Tracker.runOp]
      exact Tracker.trackDependency_stack o st
  | .subtrack d ops, st => by
      simp only [Tracker.runOp]
      unfold Tracker.track
      simp only [Tracker.runOps_stack ops]
      exact List.dropLast_concat

theorem Tracker.runOps_stack : ∀ (ops : List TrackerOp) (st : TrackerState),
    (Tracker.runOps ops st).dependentStack = st.dependentStack
  | [], st => by simp only [Tracker.runOps]
  | op :: rest, st => by
      simp only [Tracker.runOps]
      rw [Tracker.runOps_stack rest, Tracker.runOp_stack op]

end

theorem Tracker.trackDependency_log_mono (o : Nat) (st : TrackerState) (x : Nat × Nat)
    (h : x ∈ st.addDependentLog) :
    x ∈ (Tracker.trackDependency o st).addDependentLog := by
  unfold Tracker.trackDependency
  split
  · exact h
  · split
    · exact h
    · simp only [List.mem_append]
      exact Or.inl h

mutual

theorem Tracker.runOp_log_mono : ∀ (op : TrackerOp) (st : TrackerState) (x : Nat × Nat),
    x ∈ st.addDependentLog → x ∈ (Tracker.runOp op st).addDependentLog
  | .readObservable o, st, x, h => by
      simp only [Tracker.runOp]
      exact Tracker.trackDependency_log_mono o st x h
  | .subtrack d ops, st, x, h => by
      simp only [Tracker.runOp]
      unfold Tracker.track
      exact Tracker.runOps_log_mono ops _ x h

theorem Tracker.runOps_log_mono : ∀ (ops : List TrackerOp) (st : TrackerState) (x : Nat × Nat),
    x ∈ st.addDependentLog → x ∈ (Tracker.runOps ops st).addDependentLog
  | [], st, x, h => by simpa only [Tracker.runOps] using h
  | op :: rest, st, x, h => by
      simp only [Tracker.runOps]
      exact Tracker.runOps_log_mono rest _ x (Tracker.runOp_log_mono op st x h)

end

theorem Tracker.runOp_scratch_not_mem (op : TrackerOp) (st : TrackerState) (x : Nat)
    (hx : x ∉ st.currentDependencies) (ho : x ∉ readIds [op]) :
    x ∉ (Tracker.runOp op st).currentDependencies := by
  cases op with
  | readObservable o =>
      simp only [Tracker.runOp]
      unfold Tracker.trackDependency
      split
      · exact hx
      · split
        · exact hx
        · intro hmem
          rcases mem_setAdd.1 hmem with h | h
          · exact hx h
          · exact ho (by simp [readIds, h])
  | subtrack d ops =>
      simp only [Tracker.runOp]
      unfold Tracker.track
      simp

theorem Tracker.runOps_scratch_not_mem : ∀ (ops : List TrackerOp) (st : TrackerState) (x : Nat),
    x ∉ st.currentDependencies → x ∉ readIds ops →
    x ∉ (Tracker.runOps ops st).currentDependencies
  | [], st, x, hx, _ => by simpa only [Tracker.runOps] using hx
  | op :: rest, st, x, hx, hro => by
      simp only [Tracker.runOps]
      have hsplit : x ∉ readIds [op] ∧ x ∉ readIds rest := by
        cases op <;> simp [readIds] at hro ⊢ <;> tauto
      exact Tracker.runOps_scratch_not_mem rest _ x
        (Tracker.runOp_scratch_not_mem op st x hx hsplit.1) hsplit.2

theorem Tracker.trackDependency_log_self (o d : Nat) (st : TrackerState)
    (hd : st.dependentStack.getLast? = some d) :
    (o, d) ∈ (Tracker.trackDependency o st).addDependentLog := by
  have hne : st.dependentStack ≠ [] := by
    intro h
    rw [h] at hd
    simp at hd
  have hlen : ¬ st.dependentStack.length ≤ 0 := by
    simpa [Nat.le_zero, List.length_eq_zero] using hne
  unfold Tracker.trackDependency Tracker.getCurrentDependent
  rw [if_neg hlen, hd]
  simp

theorem Tracker.runOps_log_read : ∀ (ops : List TrackerOp) (st : TrackerState) (o d : Nat),
    st.dependentStack.getLast? = some d → o ∈ readIds ops →
    (o, d) ∈ (Tracker.runOps ops st).addDependentLog
  | [], _, o, _, _, ho => by simp [readIds] at ho
  | .readObservable o' :: rest, st, o, d, hd, ho => by
      simp only [Tracker.runOps, Tracker.runOp]
      have ho' : o = o' ∨ o ∈ readIds rest := by
        simpa [readIds] using ho
      rcases ho' with rfl | hrest
      · exact Tracker.runOps_log_mono rest _ (o, d)
          (Tracker.trackDependency_log_self o d st hd)
      · apply Tracker.runOps_log_read rest _ o d _ hrest
        rw [Tracker.trackDependency_stack]
        exact hd
  | .subtrack d' ops' :: rest, st, o, d, hd, ho => by
      simp only [Tracker.runOps]
      apply Tracker.runOps_log_read rest _ o d _ (by simpa [readIds] using ho)
      rw [Tracker.runOp_stack]
      exact hd

theorem Tracker.runOps_append (a b : List TrackerOp) (st : TrackerState) :
    Tracker.runOps (a ++ b) st = Tracker.runOps b (Tracker.runOps a st) := by
  induction a generalizing st with
  | nil => simp only [List.nil_append, Tracker.runOps]
  | cons op rest ih =>
      simp only [List.cons_append, Tracker.runOps]
      exact ih _

/-- C1: the code throws the invalid-operation error exactly when the
computed's current value IS an array, the opposite of the claim (and of
the code's own doc comments, which say the helpers throw when the value
is NOT an array).  Evaluated at the failing input: a computed whose
current value is the array `[1]` makes all four helpers throw, while a
computed whose current value is the number `1` makes them all return a
derived computed. -/
theorem c1_array_helpers_guard_inverted :
    Computed.every (JsValue.arr [Val.nat 1]) = Except.error onlyOnComputedArrays ∧
    Computed.someOp (JsValue.arr [Val.nat 1]) = Except.error onlyOnComputedArrays ∧
    Computed.mapItems (JsValue.arr [Val.nat 1]) = Except.error onlyOnComputedArrays ∧
    Computed.filterItems (JsValue.arr [Val.nat 1]) = Except.error onlyOnComputedArrays ∧
    Computed.every (JsValue.prim (Val.nat 1)) = Except.ok () ∧
    Computed.someOp (JsValue.prim (Val.nat 1)) = Except.ok () ∧
    Computed.mapItems (JsValue.prim (Val.nat 1)) = Except.ok () ∧
    Computed.filterItems (JsValue.prim (Val.nat 1)) = Except.ok () := by
  refine ⟨rfl, rfl, rfl, rfl, rfl, rfl, rfl, rfl⟩

/-- C2 (counterexample): the outer tracking session of dependent `1`
reads observable `10` and then an inner `track` call (dependent `2`,
empty callback) runs to completion; observable `10` is NOT in the
dependency set returned by the outer `track` call, because the inner call
cleared the shared scratch set. -/
theorem c2_counterexample :
    10 ∉ (Tracker.track 1
        [TrackerOp.readObservable 10, TrackerOp.subtrack 2 []] trackerInit).1 := by
  simp [Tracker.track, Tracker.runOps, Tracker.runOp, Tracker.trackDependency,
        Tracker.getCurrentDependent, trackerInit, setAdd]

/-- C2 (amended): if the dependent of the outer tracking session reads
observable `o` before an inner `track()` call runs to completion, and `o`
is not read again at the outer depth after the inner call, then `o` is
NOT contained in the dependencies set returned by the outer `track()`
call (the inner call clears the process-wide scratch set); however the
`Observable -> Dependent` edge registered by `addDependent` at the moment
of the read does persist. -/
theorem c2_nested_tracking (o d d' : Nat) (pre inner post : List TrackerOp)
    (st : TrackerState) (ho : o ∈ readIds pre) (hpost : o ∉ readIds post) :
    o ∉ (Tracker.track d (pre ++ TrackerOp.subtrack d' inner :: post) st).1 ∧
    (o, d) ∈ (Tracker.track d (pre ++ TrackerOp.subtrack d' inner :: post)
        st).2.addDependentLog := by
  unfold Tracker.track
  dsimp only
  rw [Tracker.runOps_append]
  constructor
  · show o ∉ (Tracker.runOps (TrackerOp.subtrack d' inner :: post) _).currentDependencies
    simp only [Tracker.runOps]
    apply Tracker.runOps_scratch_not_mem post _ o _ hpost
    simp only [Tracker.runOp]
    unfold Tracker.track
    simp
  · show (o, d) ∈ (Tracker.runOps (TrackerOp.subtrack d' inner :: post) _).addDependentLog
    simp only [Tracker.runOps]
    apply Tracker.runOps_log_mono
    apply Tracker.runOp_log_mono
    apply Tracker.runOps_log_read pre _ o d _ ho
    simp

theorem c2_nested_tracking_witness :
    10 ∈ readIds [TrackerOp.readObservable 10] ∧
    10 ∉ readIds ([] : List TrackerOp) ∧
    10 ∉ (Tracker.track 1
        ([TrackerOp.readObservable 10] ++ TrackerOp.subtrack 2 [] :: []) trackerInit).1 ∧
    (10, 1) ∈ (Tracker.track 1
        ([TrackerOp.readObservable 10] ++ TrackerOp.subtrack 2 [] :: [])
        trackerInit).2.addDependentLog := by
  refine ⟨by simp [readIds], by simp [readIds], ?_, ?_⟩
  · exact (c2_nested_tracking 10 1 2 [TrackerOp.readObservable 10] [] [] trackerInit
      (by simp [readIds]) (by simp [readIds])).1
  · exact (c2_nested_tracking 10 1 2 [TrackerOp.readObservable 10] [] [] trackerInit
      (by simp [readIds]) (by simp [readIds])).2

/-!
## ReactiveList (`reactive-list.ts`)

`items` models the backing JavaScript array: a list of slots, where
`none` is an empty slot (`undefined`, as produced by `delete arr[i]`) and
`some x` a present element.  Listeners are identified by numeric ids;
every listener invocation and dependent invalidation an operation
performs is returned as an ordered event list (the listeners of the
claims under study only record their invocations). -/

/-- One notification fired by a `ReactiveList` operation, in firing
order: a dependent invalidation, a whole-list change-listener call, an
add-listener call, or a remove-listener call. -/
inductive ListEvent (α : Type)
  | invalidated (dependent : Nat)
  | changed (listener : Nat) (items : List (Option α))
  | itemAdded (listener : Nat) (value : Option α) (index : Nat)
  | itemRemoved (listener : Nat) (value : Option α) (index : Nat)
  deriving DecidableEq, Repr

/-- The `ReactiveList` fields from `reactive-list.ts` (`Set`s modelled as
insertion-ordered lists of ids). -/
structure ReactiveList (α : Type) where
  items : List (Option α)
  dependents : List Nat
  listeners : List Nat
  addListeners : List Nat
  removeListeners : List Nat
  deriving DecidableEq, Repr

/-- `new ReactiveList(initialItems)` with the given listener ids
registered: the items are a copy of `initialItems` (all slots filled). -/
def ReactiveList.ofList (xs : List α) (ds ls als rls : List Nat) : ReactiveList α :=
  ⟨xs.map some, ds, ls, als, rls⟩

/-- `notifyDependents`: `for (const dependent of [...dependents])
dependent.invalidate()`. -/
def notifyDependents (dependents : List Nat) : List (ListEvent α) :=
  dependents.map ListEvent.invalidated

/-- `notifyItemRemoved`: calls every remove listener with the value and
index. -/
def notifyItemRemoved (removeListeners : List Nat) (value : Option α) (index : Nat) :
    List (ListEvent α) :=
  removeListeners.map fun l => ListEvent.itemRemoved l value index

/-- `safeNotifyItemRemoved`: guarded by `removeListeners.size > 0`. -/
def safeNotifyItemRemoved (removeListeners : List Nat) (value : Option α) (index : Nat) :
    List (ListEvent α) :=
  if removeListeners.length > 0 then notifyItemRemoved removeListeners value index else []

/-- `onItemsChanged(dependents, listeners, items)`: invalidates all
dependents (if any), then calls every whole-list change listener with the
(live) items array. -/
def onItemsChanged (dependents listeners : List Nat) (items : List (Option α)) :
    List (ListEvent α) :=
  (if dependents.length > 0 then notifyDependents dependents else []) ++
  (if listeners.length > 0 then listeners.map (fun l => ListEvent.changed l items) else [])

/-- The remove-notification loop of `ReactiveList.clear`:
`for (let index = clone.length; index > 0; index -= 1)` fires
`notifyItemRemoved(removeListeners, clone[index - 1], index - 1)` for
each slot whose value is not `undefined`, highest index first. -/
def clearLoop (removeListeners : List Nat) (clone : List (Option α)) : Nat → List (ListEvent α)
  | 0 => []
  | index + 1 =>
      (match clone.getD index none with
       | some v => notifyItemRemoved removeListeners (some v) index
       | none => []) ++ clearLoop removeListeners clone index

/-- `ReactiveList.clear()` from `reactive-list.ts`: no-op when the list
is empty; otherwise fires the descending remove notifications over a
clone of the items, replaces the items with a fresh empty array, and runs
`onItemsChanged`. -/
def ReactiveList.clear (l : ReactiveList α) : ReactiveList α × List (ListEvent α) :=
  if l.items.length ≤ 0 then (l, [])
  else
    let removeEvents :=
      if l.removeListeners.length > 0 then clearLoop l.removeListeners l.items l.items.length
      else []
    ({ l with items := [] },
     removeEvents ++ onItemsChanged l.dependents l.listeners [])

/-- `ReactiveList.peek()` from `reactive-list.ts`: an untracked snapshot
copy `[...this.items]` of the backing array (empty slots iterate as
`undefined`, i.e. `none`). -/
def ReactiveList.peek (l : ReactiveList α) : List (Option α) :=
  l.items

/-- `ReactiveList.pop()` from `reactive-list.ts`: returns `undefined` on
an empty list; otherwise reads `items[length - 1]`, executes
`delete items[length - 1]` (which empties the slot but does NOT shrink
the array), fires the remove notification and `onItemsChanged`, and
returns the read element. -/
def ReactiveList.pop (l : ReactiveList α) : ReactiveList α × List (ListEvent α) × Option α :=
  if l.items.length = 0 then (l, [], none)
  else
    let item := l.items.getD (l.items.length - 1) none
    let newItems := l.items.set (l.items.length - 1) none
    ({ l with items := newItems },
     safeNotifyItemRemoved l.removeListeners item (l.items.length - 1) ++
       onItemsChanged l.dependents l.listeners newItems,
     item)

/-- `ReactiveList.update(index, value)` from `reactive-list.ts`: returns
`false` without any notification when the index is outside
`[0, length)`; otherwise replaces the slot in place, runs
`onItemsChanged` and returns `true` (no equality check against the
previous element). -/
def ReactiveList.update (l : ReactiveList α) (index : Int) (value : α) :
    ReactiveList α × List (ListEvent α) × Bool :=
  if index < 0 ∨ (l.items.length : Int) ≤ index then (l, [], false)
  else
    let newItems := l.items.set index.toNat (some value)
    ({ l with items := newItems },
     onItemsChanged l.dependents l.listeners newItems,
     true)

theorem onItemsChanged_eq (ds ls : List Nat) (items : List (Option α)) :
    onItemsChanged ds ls items =
      ds.map ListEvent.invalidated ++ ls.map (fun l => ListEvent.changed l items) := by
  unfold onItemsChanged notifyDependents
  rcases ds <;> rcases ls <;> simp

/-- Specification of `clear`'s remove notifications: one remove event per
item, carrying the item and its index, listed highest index first.
`i` is the index of the first element of `xs` in the original list. -/
def descendingRemovesFrom (rls : List Nat) : List α → Nat → List (ListEvent α)
  | [], _ => []
  | x :: rest, i => descendingRemovesFrom rls rest (i + 1) ++ notifyItemRemoved rls (some x) i

theorem descendingRemovesFrom_concat (rls : List Nat) (ys : List α) (x : α) (i : Nat) :
    descendingRemovesFrom rls (ys ++ [x]) i =
      notifyItemRemoved rls (some x) (i + ys.length) ++ descendingRemovesFrom rls ys i := by
  induction ys generalizing i with
  | nil => simp [descendingRemovesFrom]
  | cons y rest ih =>
      simp only [List.cons_append, descendingRemovesFrom, List.length_cons, List.append_eq]
      rw [ih (i + 1)]
      have h : i + 1 + rest.length = i + (rest.length + 1) := by omega
      rw [h, List.append_assoc]

theorem clearLoop_append_stable (rls : List Nat) (clone extra : List (Option α)) :
    ∀ n, n ≤ clone.length → clearLoop rls (clone ++ extra) n = clearLoop rls clone n := by
  intro n
  induction n with
  | zero => intro _; rfl
  | succ m ih =>
      intro h
      have hm : m < clone.length := h
      simp only [clearLoop, List.getD_append _ _ _ _ hm, ih (Nat.le_of_lt hm)]

theorem clearLoop_eq_descendingRemoves (rls : List Nat) (xs : List α) :
    clearLoop rls (xs.map some) xs.length = descendingRemovesFrom rls xs 0 := by
  induction xs using List.reverseRecOn with
  | nil => rfl
  | append_singleton ys x ih =>
      have hlen : (ys ++ [x]).length = ys.length + 1 := by simp
      rw [hlen]
      simp only [clearLoop, List.map_append, List.map_cons, List.map_nil]
      rw [List.getD_append_right _ _ _ _ (by simp : (ys.map some).length ≤ ys.length)]
      simp only [List.length_map, Nat.sub_self, List.getD_cons_zero]
      rw [clearLoop_append_stable rls (ys.map some) [some x] ys.length (by simp)]
      rw [ih, descendingRemovesFrom_concat]
      simp

/-- C5: evaluation of `pop()` at the failing input.  On the two-element
list `[1, 2]` (remove listener `9`, change listener `8`, dependent `7`),
`pop()` returns the last element `2` and fires one remove event with
index `1` followed by the dependent invalidation and one whole-list
change — but afterwards the items are `[some 1, none]`: still of length
2, with an empty slot (`undefined`) at the end, because the code runs
`delete items[length - 1]`, which does not shrink the array.  The claim's
expected contents `[1]` of length 1 do not hold.  On an empty list,
`pop()` returns the not-found sentinel and fires nothing. -/
theorem c5_pop_leaves_hole :
    ReactiveList.pop (⟨[some 1, some 2], [7], [8], [], [9]⟩ : ReactiveList Nat) =
      (⟨[some 1, none], [7], [8], [], [9]⟩,
       [ListEvent.itemRemoved 9 (some 2) 1,
        ListEvent.invalidated 7,
        ListEvent.changed 8 [some 1, none]],
       some 2) ∧
    ReactiveList.peek (⟨[some 1, none], [7], [8], [], [9]⟩ : ReactiveList Nat) =
      [some 1, none] ∧
    (ReactiveList.peek (⟨[some 1, none], [7], [8], [], [9]⟩ : ReactiveList Nat)).length = 2 ∧
    ReactiveList.pop (⟨[], [7], [8], [], [9]⟩ : ReactiveList Nat) =
      (⟨[], [7], [8], [], [9]⟩, [], none) := by
  refine ⟨rfl, rfl, rfl, rfl⟩

/-- C7: `clear()` on a list with items `xs` (with a remove listener `r`,
a change listener `c`, and arbitrary dependents `ds`): when `xs` is
nonempty it empties the list and fires exactly one remove event per item
in strictly descending index order (each carrying the item at that
index), followed by the dependent invalidations and exactly one
whole-list change notification; when the list is empty it fires no
notification of any kind. -/
theorem c7_clear_descending (xs : List α) (ds als : List Nat) (r c : Nat)
    (hne : xs ≠ []) :
    ReactiveList.clear (ReactiveList.ofList xs ds [c] als [r]) =
      (⟨[], ds, [c], als, [r]⟩,
       descendingRemovesFrom [r] xs 0 ++
         (ds.map ListEvent.invalidated ++ [ListEvent.changed c []])) ∧
    ReactiveList.clear (ReactiveList.ofList ([] : List α) ds [c] als [r]) =
      (ReactiveList.ofList [] ds [c] als [r], []) := by
  constructor
  · have hlen : ¬ (ReactiveList.ofList xs ds [c] als [r]).items.length ≤ 0 := by
      simp [ReactiveList.ofList, List.length_eq_zero, hne]
    unfold ReactiveList.clear
    rw [if_neg hlen]
    dsimp only [ReactiveList.ofList]
    rw [if_pos (by simp)]
    rw [show (xs.map some).length = xs.length by simp]
    rw [clearLoop_eq_descendingRemoves, onItemsChanged_eq]
    simp
  · rfl

theorem c7_clear_descending_witness :
    ([1, 2, 3] : List Nat) ≠ [] ∧
    ReactiveList.clear (ReactiveList.ofList ([1, 2, 3] : List Nat) [7] [8] [] [9]) =
      (⟨[], [7], [8], [], [9]⟩,
       [ListEvent.itemRemoved 9 (some 3) 2,
        ListEvent.itemRemoved 9 (some 2) 1,
        ListEvent.itemRemoved 9 (some 1) 0,
        ListEvent.invalidated 7,
        ListEvent.changed 8 []]) := by
  refine ⟨by decide, ?_⟩
  have h := (c7_clear_descending ([1, 2, 3] : List Nat) [7] [] 9 8 (by decide)).1
  rw [h]
  rfl

/-- C10: `update(i, v)` with `i` in `[0, length)` returns `true`,
replaces exactly the element at index `i` (every other slot unchanged),
and fires only the dependent invalidations followed by the whole-list
change notifications — no item-added and no item-removed events — with no
equality check against the previous element (so it fires even when `v`
is the element already stored).  For `i` outside `[0, length)` it returns
`false`, leaves the list unchanged and fires nothing. -/
theorem c10_update_in_place (l : ReactiveList α) (i : Int) (v : α) :
    (0 ≤ i ∧ i < (l.items.length : Int) →
      ReactiveList.update l i v =
        ({ l with items := l.items.set i.toNat (some v) },
         l.dependents.map ListEvent.invalidated ++
           l.listeners.map (fun c => ListEvent.changed c (l.items.set i.toNat (some v))),
         true) ∧
      (l.items.set i.toNat (some v)).getD i.toNat none = some v ∧
      ∀ j : Nat, j ≠ i.toNat →
        (l.items.set i.toNat (some v)).getD j none = l.items.getD j none) ∧
    (¬ (0 ≤ i ∧ i < (l.items.length : Int)) →
      ReactiveList.update l i v = (l, [], false)) := by
  constructor
  · rintro ⟨h0, hlt⟩
    have hnat : i.toNat < l.items.length := by omega
    refine ⟨?_, ?_, ?_⟩
    · unfold ReactiveList.update
      rw [if_neg (by omega)]
      dsimp only
      rw [onItemsChanged_eq]
    · rw [List.getD_eq_getElem?_getD]
      simp [List.getElem?_set_self, hnat]
    · intro j hj
      rw [List.getD_eq_getElem?_getD, List.getD_eq_getElem?_getD]
      rw [List.getElem?_set_ne (fun he => hj he.symm)]
  · intro h
    unfold ReactiveList.update
    rw [if_pos (by omega)]

theorem c10_update_in_place_witness :
    ((0 : Int) ≤ 1 ∧ (1 : Int) < ((2 : Nat) : Int)) ∧
    ReactiveList.update (⟨[some 5, some 6], [7], [8], [], [9]⟩ : ReactiveList Nat) 1 6 =
      (⟨[some 5, some 6], [7], [8], [], [9]⟩,
       [ListEvent.invalidated 7, ListEvent.changed 8 [some 5, some 6]],
       true) ∧
    ReactiveList.update (⟨[some 5, some 6], [7], [8], [], [9]⟩ : ReactiveList Nat) 2 6 =
      (⟨[some 5, some 6], [7], [8], [], [9]⟩, [], false) := by
  refine ⟨by constructor <;> decide, ?_, ?_⟩
  · have h := (c10_update_in_place
      (⟨[some 5, some 6], [7], [8], [], [9]⟩ : ReactiveList Nat) 1 6).1
      ⟨by decide, by decide⟩
    rw [h.1]
    rfl
  · have h := (c10_update_in_place
      (⟨[some 5, some 6], [7], [8], [], [9]⟩ : ReactiveList Nat) 2 6).2
      (by intro hc; rcases hc with ⟨h1, h2⟩; revert h2; decide)
    rw [h]

/-!
## The reactive graph (`state.ts`, `computed.ts`, `dependency-tracker.ts`)

A world holds the nodes of one reactive graph (`State` and `Computed`
objects, identified by their index), the tracker's process-wide stack and
scratch set, and an event log recording every compute-function invocation
and change-listener call.  Change listeners are identified by ids and
only record their invocation (the listeners in the claims under study
have no side effects on the graph).  Recursion (invalidation cascades,
lazy recomputation) is bounded by fuel; if any operation ever runs out of
fuel the `fuelOut` flag is set and stays set, so the theorems below —
whose right-hand sides all have `fuelOut = false` — cannot hold by
evaluation being cut short. -/

/-- A compute function body: a literal, a tracked read `x.get()` of
another node, a JS conditional `c.get() ? t : e`, or a numeric
multiplication (as in the repository's `() => state.get() * 2`). -/
inductive Expr
  | lit (v : Val)
  | readNode (id : Nat)
  | cond (c t e : Expr)
  | nmul (a b : Expr)
  deriving DecidableEq, Repr

/-- `State` fields from `state.ts`: the stored value, the dependent set
and the change-listener set (listener ids). -/
structure StateNode where
  internalValue : Val
  dependents : List Nat
  listeners : List Nat
  deriving DecidableEq, Repr

/-- `Computed` fields from `computed.ts`. -/
structure ComputedNode where
  computeFunction : Expr
  cachedValue : Val
  isDirty : Bool
  dependencies : List Nat
  dependents : List Nat
  listeners : List Nat
  forceEager : Bool
  deriving DecidableEq, Repr

/-- A node of the reactive graph. -/
inductive RNode
  | state (s : StateNode)
  | computed (c : ComputedNode)
  deriving DecidableEq, Repr

/-- An entry of the event log: a change listener invoked with a value, or
one invocation of a computed's compute function. -/
inductive REvent
  | listenerCalled (listener : Nat) (value : Val)
  | computeRun (id : Nat)
  deriving DecidableEq, Repr

/-- A reactive graph together with the tracker state and the event log. -/
structure RWorld where
  nodes : List RNode
  dependentStack : List Nat
  currentDependencies : List Nat
  events : List REvent
  fuelOut : Bool
  deriving DecidableEq, Repr

/-- Replace node `id`. -/
def RWorld.setNode (w : RWorld) (id : Nat) (n : RNode) : RWorld :=
  { w with nodes := w.nodes.set id n }

/-- Append an entry to the event log. -/
def RWorld.logEvent (w : RWorld) (e : REvent) : RWorld :=
  { w with events := w.events ++ [e] }

/-- `observable.addDependent(dependent)`: `Set.add` on the node's
dependent set (`state.ts` / `computed.ts`). -/
def RWorld.addDependent (w : RWorld) (oid d : Nat) : RWorld :=
  match w.nodes[oid]? with
  | some (.state s) => w.setNode oid (.state { s with dependents := setAdd s.dependents d })
  | some (.computed c) => w.setNode oid (.computed { c with dependents := setAdd c.dependents d })
  | none => w

/-- `observable.removeDependent(dependent)`: `Set.delete`. -/
def RWorld.removeDependent (w : RWorld) (oid d : Nat) : RWorld :=
  match w.nodes[oid]? with
  | some (.state s) => w.setNode oid (.state { s with dependents := s.dependents.erase d })
  | some (.computed c) => w.setNode oid (.computed { c with dependents := c.dependents.erase d })
  | none => w

/-- Update computed node `id` in place (no-op on states / missing ids). -/
def RWorld.modifyComputed (w : RWorld) (id : Nat) (f : ComputedNode → ComputedNode) : RWorld :=
  match w.nodes[id]? with
  | some (.computed c) => w.setNode id (.computed (f c))
  | _ => w

/-- `trackDependency(observable)` acting on the graph world: no-op
without an active tracking session, otherwise adds the observable to the
scratch set and registers the innermost dependent on it. -/
def RWorld.trackDependency (w : RWorld) (oid : Nat) : RWorld :=
  if w.dependentStack.length ≤ 0 then w
  else
    match w.dependentStack.getLast? with
    | none => w
    | some d =>
        RWorld.addDependent { w with currentDependencies := setAdd w.currentDependencies oid } oid d

/-- `clearDependencies(object, dependencies)` from `computed.ts`: calls
`dependency.removeDependent(object)` on every tracked dependency, then
clears the computed's dependency set. -/
def RWorld.clearDependencies (w : RWorld) (id : Nat) : RWorld :=
  match w.nodes[id]? with
  | some (.computed c) =>
      let w1 := c.dependencies.foldl (fun w2 oid => w2.removeDependent oid id) w
      w1.modifyComputed id fun c1 => { c1 with dependencies := [] }
  | _ => w

/-- Invoke every listener in order with the value (logged). -/
def notifyListenersLog (w : RWorld) (listeners : List Nat) (value : Val) : RWorld :=
  listeners.foldl (fun w1 l => w1.logEvent (.listenerCalled l value)) w

mutual

/-- Evaluate a compute-function body, performing the tracked reads it
contains. -/
def evalExpr : Nat → RWorld → Expr → RWorld × Val
  | 0, w, _ => ({ w with fuelOut := true }, .undefined)
  | _ + 1, w, .lit v => (w, v)
  | fuel + 1, w, .readNode id => nodeGet fuel w id
  | fuel + 1, w, .cond c t e =>
      let p := evalExpr fuel w c
      if p.2.truthy then evalExpr fuel p.1 t else evalExpr fuel p.1 e
  | fuel + 1, w, .nmul a b =>
      let p := evalExpr fuel w a
      let q := evalExpr fuel p.1 b
      (q.1, match p.2, q.2 with
            | .nat x, .nat y => .nat (x * y)
            | _, _ => .undefined)

/-- `get()` of a `State` or `Computed`: `trackDependency(this)` then the
(peeked) current value. -/
def nodeGet : Nat → RWorld → Nat → RWorld × Val
  | 0, w, _ => ({ w with fuelOut := true }, .undefined)
  | fuel + 1, w, id => nodePeek fuel (w.trackDependency id) id

/-- `peek()`: a `State` returns its stored value; a `Computed` first
recomputes when dirty, then returns its cached value. -/
def nodePeek : Nat → RWorld → Nat → RWorld × Val
  | 0, w, _ => ({ w with fuelOut := true }, .undefined)
  | fuel + 1, w, id =>
      match w.nodes[id]? with
      | some (.state s) => (w, s.internalValue)
      | some (.computed c) =>
          if c.isDirty then
            let w1 := recompute fuel w id
            (w1, match w1.nodes[id]? with
                 | some (.computed c1) => c1.cachedValue
                 | _ => .undefined)
          else (w, c.cachedValue)
      | none => (w, .undefined)

/-- `Computed.recompute()`: severs all current upstream edges, runs the
compute function under `track(this, computeFunction)` (one invocation,
logged), then stores the fresh dependency set, the result and clears the
dirty flag. -/
def recompute : Nat → RWorld → Nat → RWorld
  | 0, w, _ => { w with fuelOut := true }
  | fuel + 1, w, id =>
      match w.nodes[id]? with
      | some (.computed c) =>
          let w1 := w.clearDependencies id
          let w2 := { w1 with
                      dependentStack := w1.dependentStack ++ [id]
                      currentDependencies := [] }
          let w3 := w2.logEvent (.computeRun id)
          let p := evalExpr fuel w3 c.computeFunction
          let deps := p.1.currentDependencies
          let w5 := { p.1 with
                      dependentStack := p.1.dependentStack.dropLast
                      currentDependencies := [] }
          w5.modifyComputed id fun c1 =>
            { c1 with dependencies := deps, cachedValue := p.2, isDirty := false }
      | _ => w

/-- `Computed.invalidate()`: early return when already dirty; otherwise
sets the dirty flag, invalidates all dependents (snapshot), and — only
when there are listeners or `forceEager` — peeks (forcing an eager
recompute) and fires the listeners when the value changed. -/
def invalidate : Nat → RWorld → Nat → RWorld
  | 0, w, _ => { w with fuelOut := true }
  | fuel + 1, w, id =>
      match w.nodes[id]? with
      | some (.computed c) =>
          if c.isDirty then w
          else
            let w1 := w.modifyComputed id fun c1 => { c1 with isDirty := true }
            let w2 := invalidateAll fuel w1 c.dependents
            match w2.nodes[id]? with
            | some (.computed c2) =>
                if 0 < c2.listeners.length ∨ c2.forceEager then
                  let previousValue := c2.cachedValue
                  let p := nodePeek fuel w2 id
                  if previousValue ≠ p.2 then
                    match p.1.nodes[id]? with
                    | some (.computed c3) => notifyListenersLog p.1 c3.listeners p.2
                    | _ => p.1
                  else p.1
                else w2
            | _ => w2
      | _ => w

/-- `for (const dependent of [...dependents]) dependent.invalidate()`. -/
def invalidateAll : Nat → RWorld → List Nat → RWorld
  | 0, w, _ => { w with fuelOut := true }
  | _ + 1, w, [] => w
  | fuel + 1, w, d :: rest => invalidateAll fuel (invalidate fuel w d) rest

/-- `State.set(value)` from `state.ts`: no-op when the new value is
`===`-equal to the current one; otherwise stores it, invalidates all
dependents (snapshot `[...dependents]`), then invokes every change
listener with the new value. -/
def setState : Nat → RWorld → Nat → Val → RWorld
  | 0, w, _, _ => { w with fuelOut := true }
  | fuel + 1, w, id, value =>
      match w.nodes[id]? with
      | some (.state s) =>
          if s.internalValue = value then w
          else
            let w1 := w.setNode id (.state { s with internalValue := value })
            let w2 := invalidateAll fuel w1 s.dependents
            match w2.nodes[id]? with
            | some (.state s2) => notifyListenersLog w2 s2.listeners value
            | _ => w2
      | _ => w

end

/-- The empty world: no nodes, no active tracking session, empty log. -/
def RWorld.empty : RWorld := ⟨[], [], [], [], false⟩

/-- `new State(initialValue)`: appends a state node with no dependents
and no listeners; returns the world and the node's id. -/
def newState (w : RWorld) (v : Val) : RWorld × Nat :=
  ({ w with nodes := w.nodes ++ [RNode.state ⟨v, [], []⟩] }, w.nodes.length)

/-- `new Computed(computeFunction)`: appends a computed node created
dirty with `cachedValue = undefined`, then runs the constructor's eager
`this.peek()` (which recomputes and establishes the initial dependency
edges); returns the world and the node's id. -/
def newComputed (fuel : Nat) (w : RWorld) (fn : Expr) : RWorld × Nat :=
  let id := w.nodes.length
  let w1 := { w with nodes := w.nodes ++ [RNode.computed ⟨fn, .undefined, true, [], [], [], false⟩] }
  ((nodePeek fuel w1 id).1, id)

/-- `s.set(v)` executed once for each value of `vs`, left to right. -/
def setAll (fuel : Nat) (w : RWorld) (id : Nat) (vs : List Val) : RWorld :=
  vs.foldl (fun w1 v => setState fuel w1 id v) w

/-- `succDiffB v vs`: each value of `vs` differs (`!==`) from the value
it overwrites, starting from current value `v` — "successively different
values". -/
def succDiffB : Val → List Val → Bool
  | _, [] => true
  | v, x :: xs => decide (x ≠ v) && succDiffB x xs

/-- The stored value after writing each element of `vs` in order over an
initial value `v`. -/
def lastWrite : Val → List Val → Val
  | v, [] => v
  | _, x :: xs => lastWrite x xs

/-!
### C4 scenario: one `State` (node 0) with one lazily depending
`Computed` (node 1), mirroring the repository test
`new Computed(() => state.get() * 2)`.
-/

/-- The compute function `() => state.get() * 2` of the C4 scenario. -/
def c4Fn : Expr := Expr.nmul (Expr.readNode 0) (Expr.lit (Val.nat 2))

/-- JS `value * 2` on the values of this scenario. -/
def vmulTwo : Val → Val
  | .nat n => .nat (n * 2)
  | _ => .undefined

/-- The C4 world family: state node 0 holding `v` with the computed
(node 1) registered as its only dependent; computed node 1 with compute
function `fn`, cached value `cached`, dirty flag `d`, dependency set
`{0}`, no dependents, no listeners (`listeners.size = 0`) and
`forceEager = false`; no active tracking session; event log `evs`. -/
def c4World (fn : Expr) (v cached : Val) (d : Bool) (evs : List REvent) : RWorld :=
  { nodes := [RNode.state ⟨v, [1], []⟩,
              RNode.computed ⟨fn, cached, d, [0], [], [], false⟩],
    dependentStack := [], currentDependencies := [], events := evs, fuelOut := false }

theorem c4World_set (fuel : Nat) (fn : Expr) (v cached : Val) (d : Bool)
    (evs : List REvent) (v' : Val) :
    setState (fuel + 4) (c4World fn v cached d evs) 0 v' =
      if v' = v then c4World fn v cached d evs else c4World fn v' cached true evs := by
  by_cases h : v' = v
  · subst h
    simp [setState, c4World]
  · rw [if_neg h]
    cases d <;>
      simp [setState, c4World, invalidateAll, invalidate, RWorld.modifyComputed,
            RWorld.setNode, notifyListenersLog, Ne.symm h]

theorem c4World_peek (fuel : Nat) (v cached : Val) (evs : List REvent) :
    nodePeek (fuel + 6) (c4World c4Fn v cached true evs) 1 =
      (c4World c4Fn v (vmulTwo v) false (evs ++ [REvent.computeRun 1]), vmulTwo v) := by
  cases v <;>
    simp [nodePeek, recompute, c4World, c4Fn, vmulTwo, RWorld.clearDependencies,
          RWorld.modifyComputed, RWorld.setNode, RWorld.logEvent, evalExpr, nodeGet,
          RWorld.trackDependency, RWorld.addDependent, RWorld.removeDependent, setAdd,
          List.erase]

theorem c4World_setAll_dirty :
    ∀ (vs : List Val) (fuel : Nat) (fn : Expr) (v cached : Val) (evs : List REvent),
    succDiffB v vs = true →
    setAll (fuel + 4) (c4World fn v cached true evs) 0 vs =
      c4World fn (lastWrite v vs) cached true evs
  | [], _, _, _, _, _, _ => by simp [setAll, lastWrite]
  | x :: xs, fuel, fn, v, cached, evs, h => by
      obtain ⟨h1, h2⟩ : x ≠ v ∧ succDiffB x xs = true := by
        simpa [succDiffB] using h
      have hstep := c4World_set fuel fn v cached true evs x
      rw [if_neg h1] at hstep
      show (x :: xs).foldl (fun w1 v1 => setState (fuel + 4) w1 0 v1)
          (c4World fn v cached true evs) = _
      rw [List.foldl_cons, hstep]
      exact c4World_setAll_dirty xs fuel fn x cached evs h2

/-- C4: in the scenario of one `State` (node 0, initial value 1) and one
`Computed` `() => state.get() * 2` (node 1) with empty listener set and
`forceEager = false` — reachable by construction (first conjunct: the
constructor's eager initial evaluation runs the compute function exactly
once, leaving the clean world `c4World`) — after `N >= 1` calls to
`s.set` with successively different values and no intervening read, the
world is `c4World` with only the stored value changed and the dirty
flag set: the event log still equals `evs`, so the compute function was
not invoked again.  The next single `peek()` (or `get()`) then appends
exactly one `computeRun` event — one compute-function invocation — and
returns the fresh value. -/
theorem c4_lazy_computed (fuel : Nat) (vs : List Val) (cached : Val) (evs : List REvent)
    (hne : vs ≠ []) (hdiff : succDiffB (Val.nat 1) vs = true) :
    (newComputed 20 (newState RWorld.empty (Val.nat 1)).1 c4Fn).1 =
      c4World c4Fn (Val.nat 1) (Val.nat 2) false [REvent.computeRun 1] ∧
    setAll (fuel + 4) (c4World c4Fn (Val.nat 1) cached false evs) 0 vs =
      c4World c4Fn (lastWrite (Val.nat 1) vs) cached true evs ∧
    nodePeek (fuel + 6) (c4World c4Fn (lastWrite (Val.nat 1) vs) cached true evs) 1 =
      (c4World c4Fn (lastWrite (Val.nat 1) vs) (vmulTwo (lastWrite (Val.nat 1) vs)) false
        (evs ++ [REvent.computeRun 1]), vmulTwo (lastWrite (Val.nat 1) vs)) ∧
    nodeGet (fuel + 7) (c4World c4Fn (lastWrite (Val.nat 1) vs) cached true evs) 1 =
      (c4World c4Fn (lastWrite (Val.nat 1) vs) (vmulTwo (lastWrite (Val.nat 1) vs)) false
        (evs ++ [REvent.computeRun 1]), vmulTwo (lastWrite (Val.nat 1) vs)) := by
  refine ⟨by decide, ?_, c4World_peek fuel _ cached evs, ?_⟩
  · rcases vs with _ | ⟨x, xs⟩
    · exact absurd rfl hne
    · obtain ⟨h1, h2⟩ : x ≠ Val.nat 1 ∧ succDiffB x xs = true := by
        simpa [succDiffB] using hdiff
      have hstep := c4World_set fuel c4Fn (Val.nat 1) cached false evs x
      rw [if_neg h1] at hstep
      show (x :: xs).foldl (fun w1 v1 => setState (fuel + 4) w1 0 v1)
          (c4World c4Fn (Val.nat 1) cached false evs) = _
      rw [List.foldl_cons, hstep]
      exact c4World_setAll_dirty xs fuel c4Fn x cached evs h2
  · show nodePeek (fuel + 6)
        (RWorld.trackDependency (c4World c4Fn (lastWrite (Val.nat 1) vs) cached true evs) 1) 1 = _
    rw [show RWorld.trackDependency (c4World c4Fn (lastWrite (Val.nat 1) vs) cached true evs) 1 =
        c4World c4Fn (lastWrite (Val.nat 1) vs) cached true evs by
      simp [RWorld.trackDependency, c4World]]
    exact c4World_peek fuel _ cached evs

theorem c4_lazy_computed_witness :
    ([Val.nat 5, Val.nat 7] ≠ ([] : List Val)) ∧
    succDiffB (Val.nat 1) [Val.nat 5, Val.nat 7] = true ∧
    (setAll 4 (c4World c4Fn (Val.nat 1) (Val.nat 2) false [REvent.computeRun 1]) 0
        [Val.nat 5, Val.nat 7] =
      c4World c4Fn (Val.nat 7) (Val.nat 2) true [REvent.computeRun 1] ∧
    nodePeek 6 (c4World c4Fn (Val.nat 7) (Val.nat 2) true [REvent.computeRun 1]) 1 =
      (c4World c4Fn (Val.nat 7) (Val.nat 14) false
        [REvent.computeRun 1, REvent.computeRun 1], Val.nat 14)) := by
  refine ⟨by decide, by decide, ?_, ?_⟩
  · exact (c4_lazy_computed 0 [Val.nat 5, Val.nat 7] (Val.nat 2) [REvent.computeRun 1]
      (by decide) (by decide)).2.1
  · exact (c4_lazy_computed 0 [Val.nat 5, Val.nat 7] (Val.nat 2) [REvent.computeRun 1]
      (by decide) (by decide)).2.2.1

/-- C8: `State.set` with a value `===`-equal to the stored one
(`s.peek() === v`) returns immediately: the world — nodes, tracker state
and event log — is completely unchanged, so the stored value is the
same, zero change listeners run and zero dependents are invalidated. -/
theorem c8_noop_set (fuel : Nat) (w : RWorld) (id : Nat) (s : StateNode) (v : Val)
    (hnode : w.nodes[id]? = some (RNode.state s)) (hv : s.internalValue = v) :
    setState (fuel + 1) w id v = w := by
  simp [setState, hnode, hv]

theorem c8_noop_set_witness :
    (c4World c4Fn (Val.nat 1) (Val.nat 2) false []).nodes[0]? =
      some (RNode.state ⟨Val.nat 1, [1], []⟩) ∧
    (⟨Val.nat 1, [1], []⟩ : StateNode).internalValue = Val.nat 1 ∧
    setState 9 (c4World c4Fn (Val.nat 1) (Val.nat 2) false []) 0 (Val.nat 1) =
      c4World c4Fn (Val.nat 1) (Val.nat 2) false [] := by
  refine ⟨by decide, rfl, ?_⟩
  exact c8_noop_set 8 _ 0 ⟨Val.nat 1, [1], []⟩ (Val.nat 1) (by decide) rfl

/-!
### C3 scenario: `toggle` (node 0), `a` (node 1), `b` (node 2) and a
`Computed` `() => toggle.get() ? a.get() : b.get()` (node 3), mirroring
the repository test for dynamic dependency pruning.
-/

/-- The compute function `() => toggle.get() ? a.get() : b.get()`. -/
def c3Fn : Expr := Expr.cond (Expr.readNode 0) (Expr.readNode 1) (Expr.readNode 2)

/-- The C3 scenario after construction: `toggle = true`, `a = 1`,
`b = 10`, then `new Computed(c3Fn)`. -/
def c3Init : RWorld :=
  (newComputed 20 (newState (newState (newState RWorld.empty
    (Val.bool true)).1 (Val.nat 1)).1 (Val.nat 10)).1 c3Fn).1

/-- The C3 scenario after `a.set(5)` and a `peek()` of the computed. -/
def c3AfterA5 : RWorld := (nodePeek 20 (setState 20 c3Init 1 (Val.nat 5)) 3).1

/-- The C3 scenario after `toggle.set(false)` and a `peek()` of the
computed (the recompute that drops the `a` edge). -/
def c3Toggled : RWorld := (nodePeek 20 (setState 20 c3AfterA5 0 (Val.bool false)) 3).1

/-- The event log of `c3Toggled`: one compute-function invocation at
construction and one per `peek()` after each of the two mutations. -/
def c3Evs : List REvent := [REvent.computeRun 3, REvent.computeRun 3, REvent.computeRun 3]

/-- The post-toggle C3 world family: `toggle` (node 0, dependents `{3}`),
`a` (node 1, dependents `aDeps`), `b` (node 2, dependents `{3}`), and the
computed (node 3) with cached value `cached`, dirty flag `cdirty` and
dependency set `cdeps`; no listeners anywhere, no tracking session. -/
def c3W (tv av bv : Val) (aDeps : List Nat) (cdirty : Bool) (cached : Val)
    (cdeps : List Nat) (evs : List REvent) : RWorld :=
  { nodes := [RNode.state ⟨tv, [3], []⟩,
              RNode.state ⟨av, aDeps, []⟩,
              RNode.state ⟨bv, [3], []⟩,
              RNode.computed ⟨c3Fn, cached, cdirty, cdeps, [], [], false⟩],
    dependentStack := [], currentDependencies := [], events := evs, fuelOut := false }

theorem c3W_setA (fuel : Nat) (acur anew bv cached : Val) (cdeps : List Nat)
    (evs : List REvent) :
    setState (fuel + 2) (c3W (Val.bool false) acur bv [] false cached cdeps evs) 1 anew =
      if anew = acur then c3W (Val.bool false) acur bv [] false cached cdeps evs
      else c3W (Val.bool false) anew bv [] false cached cdeps evs := by
  by_cases h : anew = acur
  · subst h
    simp [setState, c3W]
  · rw [if_neg h]
    simp [setState, c3W, invalidateAll, notifyListenersLog, RWorld.setNode, Ne.symm h]

theorem c3W_peek_clean (fuel : Nat) (tv av bv cached : Val) (aDeps cdeps : List Nat)
    (evs : List REvent) :
    nodePeek (fuel + 1) (c3W tv av bv aDeps false cached cdeps evs) 3 =
      (c3W tv av bv aDeps false cached cdeps evs, cached) := by
  simp [nodePeek, c3W]

theorem c3W_setB (fuel : Nat) (av bcur bnew cached : Val) (cdeps : List Nat)
    (evs : List REvent) (h : bnew ≠ bcur) :
    setState (fuel + 4) (c3W (Val.bool false) av bcur [] false cached cdeps evs) 2 bnew =
      c3W (Val.bool false) av bnew [] true cached cdeps evs := by
  simp [setState, c3W, invalidateAll, invalidate, RWorld.modifyComputed,
        notifyListenersLog, RWorld.setNode, Ne.symm h]

theorem c3W_peek_dirty (fuel : Nat) (av bv cached : Val) (evs : List REvent) :
    nodePeek (fuel + 6) (c3W (Val.bool false) av bv [] true cached [0, 2] evs) 3 =
      (c3W (Val.bool false) av bv [] false bv [0, 2] (evs ++ [REvent.computeRun 3]), bv) := by
  simp [nodePeek, recompute, c3W, c3Fn, RWorld.clearDependencies, RWorld.modifyComputed,
        RWorld.setNode, RWorld.logEvent, evalExpr, nodeGet, RWorld.trackDependency,
        RWorld.addDependent, RWorld.removeDependent, setAdd, List.erase, Val.truthy]

/-- C3: dynamic dependency pruning in the toggle scenario.  Concretely:
the computed starts at `a`'s value 1; while `toggle` is `true`, a
`a.set(5)` changes the computed's value to 5.  After `toggle.set(false)`
and the recompute, the world is exactly the pruned family `c3W` — `a`'s
dependent set is empty and the computed's dependency set is `{0, 2}`.
From any such pruned world: `a.set(anew)` changes at most `a`'s stored
value — the computed's cached value, dirty flag and the event log are
untouched (no recomputation), and its `peek()` still returns the cached
value 10 — while `b.set(u)` with a new value `u` marks the computed
dirty and the next `peek()` recomputes once and returns `u`, a changed
value. -/
theorem c3_dynamic_pruning (fuel : Nat) (acur anew u : Val) (hu : u ≠ Val.nat 10) :
    (nodePeek 20 c3Init 3).2 = Val.nat 1 ∧
    (nodePeek 20 (setState 20 c3Init 1 (Val.nat 5)) 3).2 = Val.nat 5 ∧
    c3Toggled = c3W (Val.bool false) (Val.nat 5) (Val.nat 10) [] false (Val.nat 10)
      [0, 2] c3Evs ∧
    setState (fuel + 2) (c3W (Val.bool false) acur (Val.nat 10) [] false (Val.nat 10)
        [0, 2] c3Evs) 1 anew =
      (if anew = acur then
        c3W (Val.bool false) acur (Val.nat 10) [] false (Val.nat 10) [0, 2] c3Evs
      else c3W (Val.bool false) anew (Val.nat 10) [] false (Val.nat 10) [0, 2] c3Evs) ∧
    nodePeek (fuel + 1) (c3W (Val.bool false) acur (Val.nat 10) [] false (Val.nat 10)
        [0, 2] c3Evs) 3 =
      (c3W (Val.bool false) acur (Val.nat 10) [] false (Val.nat 10) [0, 2] c3Evs,
       Val.nat 10) ∧
    setState (fuel + 4) (c3W (Val.bool false) acur (Val.nat 10) [] false (Val.nat 10)
        [0, 2] c3Evs) 2 u =
      c3W (Val.bool false) acur u [] true (Val.nat 10) [0, 2] c3Evs ∧
    nodePeek (fuel + 6) (c3W (Val.bool false) acur u [] true (Val.nat 10) [0, 2] c3Evs) 3 =
      (c3W (Val.bool false) acur u [] false u [0, 2] (c3Evs ++ [REvent.computeRun 3]), u) := by
  refine ⟨by decide, by decide, by decide,
    c3W_setA fuel acur anew (Val.nat 10) (Val.nat 10) [0, 2] c3Evs,
    c3W_peek_clean fuel (Val.bool false) acur (Val.nat 10) (Val.nat 10) [] [0, 2] c3Evs,
    c3W_setB fuel acur (Val.nat 10) u (Val.nat 10) [0, 2] c3Evs hu,
    c3W_peek_dirty fuel acur u (Val.nat 10) c3Evs⟩

theorem c3_dynamic_pruning_witness :
    (Val.nat 30 ≠ Val.nat 10) ∧
    setState 4 (c3W (Val.bool false) (Val.nat 20) (Val.nat 10) [] false (Val.nat 10)
        [0, 2] c3Evs) 2 (Val.nat 30) =
      c3W (Val.bool false) (Val.nat 20) (Val.nat 30) [] true (Val.nat 10) [0, 2] c3Evs ∧
    nodePeek 6 (c3W (Val.bool false) (Val.nat 20) (Val.nat 30) [] true (Val.nat 10)
        [0, 2] c3Evs) 3 =
      (c3W (Val.bool false) (Val.nat 20) (Val.nat 30) [] false (Val.nat 30) [0, 2]
        (c3Evs ++ [REvent.computeRun 3]), Val.nat 30) := by
  refine ⟨by decide, ?_, ?_⟩
  · exact (c3_dynamic_pruning 0 (Val.nat 20) (Val.nat 21) (Val.nat 30)
      (by decide)).2.2.2.2.2.1
  · exact (c3_dynamic_pruning 0 (Val.nat 20) (Val.nat 21) (Val.nat 30)
      (by decide)).2.2.2.2.2.2

/-!
## Change-listener notification (`state.ts`)

`onValueChanged` notifies dependents from a snapshot (`[...dependents]`)
but then runs `for (const listener of listeners) listener(value)` over
the LIVE `Set`.  A JS `Set` iterator visits entries in insertion order;
deleting an entry the iterator has not reached yet makes it skip that
entry.  We model the listener set as its entry table: a list of slots
(`id`, `present`), where `Set.delete` marks the slot absent without
removing it, and the iterator walks the slots in order, visiting the
present ones.  A listener is a call that may unsubscribe other listeners
(via the closures `onChange` returned); `behavior id` gives the ids the
listener `id` unsubscribes when invoked.  The pass returns the invocation
log: which listener ran, with which value. -/

/-- One slot of the listener `Set`'s entry table. -/
structure LEntry where
  id : Nat
  present : Bool
  deriving DecidableEq, Repr

/-- `Set.delete` via the closure returned by `onChange`: marks the first
present slot holding `i` absent. -/
def unsubscribe (i : Nat) : List LEntry → List LEntry
  | [] => []
  | e :: rest =>
      if e.present ∧ e.id = i then { e with present := false } :: rest
      else e :: unsubscribe i rest

/-- Run a listener's unsubscriptions in order. -/
def applyUnsubs (acts : List Nat) (es : List LEntry) : List LEntry :=
  acts.foldl (fun es1 i => unsubscribe i es1) es

theorem length_unsubscribe (i : Nat) : ∀ es : List LEntry,
    (unsubscribe i es).length = es.length
  | [] => rfl
  | e :: rest => by
      unfold unsubscribe
      split
      · rfl
      · simp [length_unsubscribe i rest]

theorem length_applyUnsubs (acts : List Nat) (es : List LEntry) :
    (applyUnsubs acts es).length = es.length := by
  induction acts generalizing es with
  | nil => rfl
  | cons a rest ih =>
      show (applyUnsubs rest (unsubscribe a es)).length = es.length
      rw [ih, length_unsubscribe]

/-- The listener loop of `onValueChanged`:
`for (const listener of listeners) listener(value)` over the live entry
table, where invoking listener `id` unsubscribes `behavior id` from the
not-yet-visited part of the table (deleting behind the iterator has no
effect on the remaining iteration).  Returns the invocation log. -/
def runPass (behavior : Nat → List Nat) (value : Val) : List LEntry → List (Nat × Val)
  | [] => []
  | e :: rest =>
      if e.present then
        (e.id, value) :: runPass behavior value (applyUnsubs (behavior e.id) rest)
      else runPass behavior value rest
termination_by es => es.length
decreasing_by
  · simp [length_applyUnsubs]
  · simp

/-- The ids of the present slots, in order: the listeners registered at
this moment. -/
def presentIds (es : List LEntry) : List Nat :=
  (es.filter (fun e => e.present)).map (fun e => e.id)

/-- `Set.delete` for every id of `acts`, on a plain id list. -/
def removeAll (acts : List Nat) (ids : List Nat) : List Nat :=
  acts.foldl (fun l i => l.erase i) ids

theorem length_removeAll_le (acts : List Nat) (ids : List Nat) :
    (removeAll acts ids).length ≤ ids.length := by
  induction acts generalizing ids with
  | nil => exact Nat.le_refl _
  | cons a rest ih =>
      calc (removeAll (a :: rest) ids).length = (removeAll rest (ids.erase a)).length := rfl
      _ ≤ (ids.erase a).length := ih _
      _ ≤ ids.length := List.length_erase_le _ _

/-- Specification of the live-iteration pass, following the amended
claim's words: every listener registered at the start of the pass that
has not been unsubscribed by an earlier-invoked listener is invoked
exactly once with the value, in registration order. -/
def passLog (behavior : Nat → List Nat) (value : Val) : List Nat → List (Nat × Val)
  | [] => []
  | i :: rest => (i, value) :: passLog behavior value (removeAll (behavior i) rest)
termination_by ids => ids.length
decreasing_by
  have h := length_removeAll_le (behavior i) rest
  simp only [List.length_cons]
  omega

theorem presentIds_unsubscribe (i : Nat) : ∀ es : List LEntry,
    presentIds (unsubscribe i es) = (presentIds es).erase i
  | [] => rfl
  | e :: rest => by
      unfold unsubscribe
      by_cases hp : e.present
      · by_cases hi : e.id = i
        · rw [if_pos ⟨hp, hi⟩]
          simp [presentIds, hp, hi, List.erase_cons]
        · rw [if_neg (by simp [hi])]
          have h := presentIds_unsubscribe i rest
          simp [presentIds, hp, List.erase_cons, hi] at h ⊢
          exact h
      · rw [if_neg (by simp [hp])]
        have h := presentIds_unsubscribe i rest
        simp [presentIds, hp] at h ⊢
        exact h

theorem presentIds_applyUnsubs (acts : List Nat) (es : List LEntry) :
    presentIds (applyUnsubs acts es) = removeAll acts (presentIds es) := by
  induction acts generalizing es with
  | nil => rfl
  | cons a rest ih =>
      show presentIds (applyUnsubs rest (unsubscribe a es)) = removeAll rest ((presentIds es).erase a)
      rw [ih, presentIds_unsubscribe]

theorem runPass_eq_passLog (behavior : Nat → List Nat) (value : Val) :
    ∀ es : List LEntry, runPass behavior value es = passLog behavior value (presentIds es)
  | [] => by simp [runPass, presentIds, passLog]
  | e :: rest => by
      by_cases hp : e.present
      · rw [runPass, if_pos hp]
        rw [show presentIds (e :: rest) = e.id :: presentIds rest by simp [presentIds, hp]]
        rw [passLog]
        rw [runPass_eq_passLog behavior value (applyUnsubs (behavior e.id) rest),
          presentIds_applyUnsubs]
      · rw [runPass, if_neg hp]
        rw [show presentIds (e :: rest) = presentIds rest by simp [presentIds, hp]]
        exact runPass_eq_passLog behavior value rest
termination_by es => es.length
decreasing_by
  · simp [length_applyUnsubs]
  · simp

theorem removeAll_sublist (acts : List Nat) : ∀ ids : List Nat,
    (removeAll acts ids).Sublist ids := by
  induction acts with
  | nil => exact fun ids => List.Sublist.refl ids
  | cons a rest ih =>
      intro ids
      exact (ih (ids.erase a)).trans (List.erase_sublist a ids)

theorem passLog_fst_sublist (behavior : Nat → List Nat) (value : Val) :
    ∀ ids : List Nat, ((passLog behavior value ids).map Prod.fst).Sublist ids
  | [] => by simp [passLog]
  | i :: rest => by
      rw [passLog]
      simp only [List.map_cons]
      exact List.Sublist.cons₂ i
        ((passLog_fst_sublist behavior value (removeAll (behavior i) rest)).trans
          (removeAll_sublist (behavior i) rest))
termination_by ids => ids.length
decreasing_by
  have h := length_removeAll_le (behavior i) rest
  simp only [List.length_cons]
  omega

/-- C6 (counterexample): listeners `1` and `2` are registered (present)
when `set` starts its notification pass with the new value 7; listener
`1`, invoked first, unsubscribes listener `2`; listener `2` — although
registered at the start of the pass — is never invoked, because the loop
iterates the live set, not a snapshot. -/
theorem c6_counterexample :
    2 ∈ presentIds [⟨1, true⟩, ⟨2, true⟩] ∧
    runPass (fun i => if i = 1 then [2] else []) (Val.nat 7) [⟨1, true⟩, ⟨2, true⟩] =
      [(1, Val.nat 7)] := by
  constructor
  · simp [presentIds]
  · rw [runPass, if_pos rfl]
    rw [show applyUnsubs ((fun i => if i = 1 then [2] else []) 1) [⟨2, true⟩] =
        [⟨2, false⟩] by rfl]
    rw [runPass, if_neg (by simp)]
    rw [runPass]

/-- C6 (amended): the listener loop of `State.set` iterates the live
set.  For any pass over a listener table with duplicate-free present ids
and any unsubscription behavior: the invocation log is exactly
`passLog` — every listener registered at the start of the pass that is
not unsubscribed by an earlier-invoked listener is invoked exactly once
with the new value, in registration order (the log's ids are a
duplicate-free sublist of the registered ids, so no captured listener is
double-fired; a listener unsubscribing itself or an already-invoked
listener does not disturb the rest, but one unsubscribed by an
earlier-invoked listener is skipped). -/
theorem c6_live_listener_iteration (behavior : Nat → List Nat) (v : Val) (es : List LEntry)
    (hnodup : (presentIds es).Nodup) :
    runPass behavior v es = passLog behavior v (presentIds es) ∧
    ((runPass behavior v es).map Prod.fst).Sublist (presentIds es) ∧
    ((runPass behavior v es).map Prod.fst).Nodup := by
  have hsub : ((runPass behavior v es).map Prod.fst).Sublist (presentIds es) := by
    rw [runPass_eq_passLog]
    exact passLog_fst_sublist behavior v (presentIds es)
  exact ⟨runPass_eq_passLog behavior v es, hsub, hnodup.sublist hsub⟩

theorem c6_live_listener_iteration_witness :
    (presentIds [⟨1, true⟩, ⟨2, true⟩, ⟨3, true⟩]).Nodup ∧
    ((runPass (fun i => if i = 1 then [1, 2] else []) (Val.nat 7)
        [⟨1, true⟩, ⟨2, true⟩, ⟨3, true⟩]).map Prod.fst).Nodup := by
  refine ⟨by decide, ?_⟩
  exact (c6_live_listener_iteration (fun i => if i = 1 then [1, 2] else []) (Val.nat 7)
    [⟨1, true⟩, ⟨2, true⟩, ⟨3, true⟩] (by decide)).2.2

/-!
## Observer (`observer.ts`)

`Observer.watch(reactive, callback)` invokes `callback(reactive.peek())`
once, then subscribes the wrapper `() => observer.callback?.()` to the
reactive's `onChange`; the wrapper reads the observer's mutable
`callback` field at invocation time.  `dispose()` runs the `onChange`
cleanup (removing the wrapper from the live listener set) and clears the
`callback` and `cleanup` fields; it is idempotent via `isDestroyed`.  We
model a `State` with its watchers: the listener set is the entry table of
C6 (ids are observer ids), each observer carries whether its `callback`
field is still attached and whether it is destroyed, and the underlying
callback of observer `id` may itself dispose other observers
(`behavior id`).  The log records each underlying-callback invocation
with the observed value. -/

/-- The mutable `Observer` fields: whether `callback` is still set and
the `isDestroyed` flag. -/
structure ObserverNode where
  callbackAttached : Bool
  isDestroyed : Bool
  deriving DecidableEq, Repr

/-- A `State` with watchers: its stored value, its listener entry table
(wrapper closures, by observer id), the observers, and the log of
underlying-callback invocations. -/
structure OWorld where
  stateValue : Val
  entries : List LEntry
  observers : List (Nat × ObserverNode)
  log : List (Nat × Val)
  deriving DecidableEq, Repr

/-- Look an observer up by id. -/
def lookupObs : List (Nat × ObserverNode) → Nat → Option ObserverNode
  | [], _ => none
  | (k, n) :: rest, o => if k = o then some n else lookupObs rest o

/-- Replace an observer's fields by id. -/
def setObs : List (Nat × ObserverNode) → Nat → ObserverNode → List (Nat × ObserverNode)
  | [], _, _ => []
  | (k, n) :: rest, o, n' => if k = o then (k, n') :: rest else (k, n) :: setObs rest o n'

/-- `Observer.watch(state, callback)` for a fresh observer id `o`:
invokes the callback once with the current value, registers the wrapper
as a change listener, and records the live observer. -/
def OWorld.watch (w : OWorld) (o : Nat) : OWorld :=
  { w with
    log := w.log ++ [(o, w.stateValue)]
    entries := w.entries ++ [⟨o, true⟩]
    observers := w.observers ++ [(o, ⟨true, false⟩)] }

/-- `Observer.dispose()`: no-op when already destroyed; otherwise runs
the cleanup (`listeners.delete(wrapper)` on the live set), clears the
`callback` field and marks the observer destroyed. -/
def OWorld.dispose (w : OWorld) (o : Nat) : OWorld :=
  match lookupObs w.observers o with
  | some obs =>
      if obs.isDestroyed then w
      else
        { w with
          entries := unsubscribe o w.entries
          observers := setObs w.observers o ⟨false, true⟩ }
  | none => w

/-- Run an underlying callback's dispose calls in order. -/
def applyDisposes (acts : List Nat) (w : OWorld) : OWorld :=
  acts.foldl (fun w1 o => w1.dispose o) w

/-- The listener pass of `State.set` over the watchers, from slot `k`:
for each present entry, the wrapper `() => observer.callback?.()` does
nothing when the observer's `callback` field has been cleared, and
otherwise invokes the underlying callback with the (already stored) new
value, which may dispose observers before the pass continues.  `fuel`
bounds the walk; `entries.length` is always enough because disposal
never removes slots. -/
def runOPassFrom (behavior : Nat → List Nat) : Nat → Nat → OWorld → OWorld
  | 0, _, w => w
  | fuel + 1, k, w =>
      match w.entries[k]? with
      | none => w
      | some e =>
          if e.present then
            match lookupObs w.observers e.id with
            | some obs =>
                if obs.callbackAttached then
                  runOPassFrom behavior fuel (k + 1)
                    (applyDisposes (behavior e.id)
                      { w with log := w.log ++ [(e.id, w.stateValue)] })
                else runOPassFrom behavior fuel (k + 1) w
            | none => runOPassFrom behavior fuel (k + 1) w
          else runOPassFrom behavior fuel (k + 1) w

/-- `State.set` on a watched state (`state.ts` + `observer.ts`): no-op
for a `===`-equal value; otherwise stores the value and runs the
listener pass (the dependents set of such a state is empty; observers
subscribe through `onChange`). -/
def setO (behavior : Nat → List Nat) (w : OWorld) (v : Val) : OWorld :=
  if w.stateValue = v then w
  else
    let w1 := { w with stateValue := v }
    runOPassFrom behavior w1.entries.length 0 w1

/-- Observer `o`'s `callback` field is cleared (as `dispose` leaves it). -/
def detached (w : OWorld) (o : Nat) : Prop :=
  ∀ obs, lookupObs w.observers o = some obs → obs.callbackAttached = false

theorem lookupObs_setObs_self : ∀ (l : List (Nat × ObserverNode)) (o : Nat)
    (n' obs : ObserverNode), lookupObs l o = some obs → lookupObs (setObs l o n') o = some n'
  | [], _, _, _, h => by simp [lookupObs] at h
  | (k, n) :: rest, o, n', obs, h => by
      by_cases hk : k = o
      · simp [setObs, lookupObs, hk]
      · simp only [lookupObs, setObs, if_neg hk] at h ⊢
        exact lookupObs_setObs_self rest o n' obs h

theorem lookupObs_setObs_ne : ∀ (l : List (Nat × ObserverNode)) (o o' : Nat)
    (n' : ObserverNode), o' ≠ o → lookupObs (setObs l o n') o' = lookupObs l o'
  | [], _, _, _, _ => rfl
  | (k, n) :: rest, o, o', n', h => by
      by_cases hk : k = o
      · subst hk
        simp [setObs, lookupObs, Ne.symm h]
      · simp only [setObs, if_neg hk, lookupObs]
        split
        · rfl
        · exact lookupObs_setObs_ne rest o o' n' h

theorem detached_dispose (w : OWorld) (o o' : Nat) (h : detached w o) :
    detached (OWorld.dispose w o') o := by
  unfold OWorld.dispose
  split
  · rename_i obs hobs
    split
    · exact h
    · intro obs1 hobs1
      by_cases ho : o = o'
      · subst ho
        rw [lookupObs_setObs_self w.observers o _ obs hobs] at hobs1
        cases hobs1
        rfl
      · rw [show lookupObs (setObs w.observers o' ⟨false, true⟩) o = lookupObs w.observers o from
          lookupObs_setObs_ne w.observers o' o _ ho] at hobs1
        exact h obs1 hobs1
  · exact h

theorem detached_applyDisposes (acts : List Nat) (w : OWorld) (o : Nat) (h : detached w o) :
    detached (applyDisposes acts w) o := by
  induction acts generalizing w with
  | nil => exact h
  | cons a rest ih => exact ih _ (detached_dispose w o a h)

theorem log_dispose (w : OWorld) (o : Nat) : (OWorld.dispose w o).log = w.log := by
  unfold OWorld.dispose
  split
  · split <;> rfl
  · rfl

theorem log_applyDisposes (acts : List Nat) (w : OWorld) :
    (applyDisposes acts w).log = w.log := by
  induction acts generalizing w with
  | nil => rfl
  | cons a rest ih =>
      show (applyDisposes rest (OWorld.dispose w a)).log = w.log
      rw [ih, log_dispose]

theorem runOPassFrom_detached_log (behavior : Nat → List Nat) (o : Nat) :
    ∀ (fuel k : Nat) (w : OWorld), detached w o → ∀ x : Val,
    ((o, x) ∈ (runOPassFrom behavior fuel k w).log ↔ (o, x) ∈ w.log)
  | 0, _, _, _, _ => Iff.rfl
  | fuel + 1, k, w, h, x => by
      cases he : w.entries[k]? with
      | none => simp only [runOPassFrom, he]
      | some e =>
          simp only [runOPassFrom, he]
          by_cases hp : e.present
          · rw [if_pos hp]
            rw [show lookupObs w.observers e.id = lookupObs w.observers e.id from rfl]
            cases ho : lookupObs w.observers e.id with
            | none =>
                dsimp only
                exact runOPassFrom_detached_log behavior o fuel (k + 1) w h x
            | some obs =>
                dsimp only
                by_cases ha : obs.callbackAttached
                · rw [if_pos ha]
                  have hne : e.id ≠ o := by
                    intro hid
                    subst hid
                    rw [h obs ho] at ha
                    exact Bool.false_ne_true ha
                  have hdet1 : detached
                      (applyDisposes (behavior e.id)
                        { w with log := w.log ++ [(e.id, w.stateValue)] }) o :=
                    detached_applyDisposes _ _ o h
                  rw [runOPassFrom_detached_log behavior o fuel (k + 1) _ hdet1 x]
                  rw [log_applyDisposes]
                  simp [hne]
                  exact fun h1 _ => absurd h1 (Ne.symm hne)
                · rw [if_neg ha]
                  exact runOPassFrom_detached_log behavior o fuel (k + 1) w h x
          · rw [if_neg hp]
            exact runOPassFrom_detached_log behavior o fuel (k + 1) w h x

/-- A state holding 0 with no watchers yet. -/
def c9Base : OWorld := ⟨Val.nat 0, [], [], []⟩

/-- Two observers watching the same state: `Observer.watch` ran for
observer 1, then observer 2 (each logging the initial value 0). -/
def c9Two : OWorld := OWorld.watch (OWorld.watch c9Base 1) 2

/-- C9 (counterexample): observer 2's wrapper is registered (present) in
the listener set when the notification pass of `set(5)` starts, and
observer 1's callback — invoked first — disposes observer 2.  Observer
2's callback is NOT invoked for that in-flight pass: `dispose` removes
its wrapper from the live set and clears its `callback` field, so the
claim's "a pass whose snapshot included the observer still invokes its
callback" is false at this input. -/
theorem c9_counterexample :
    (⟨2, true⟩ : LEntry) ∈ c9Two.entries ∧
    (setO (fun i => if i = 1 then [2] else []) c9Two (Val.nat 5)).log =
      [(1, Val.nat 0), (2, Val.nat 0), (1, Val.nat 5)] ∧
    (2, Val.nat 5) ∉ (setO (fun i => if i = 1 then [2] else []) c9Two (Val.nat 5)).log := by
  refine ⟨by decide, by decide, by decide⟩

/-- C9 (amended): once `dispose()` has returned, the observer's
`callback` field is cleared and its wrapper entry removed from the live
listener set (first conjunct); for any observer whose callback field is
cleared, no `set` — a subsequent mutation or the remainder of a pass in
progress — ever invokes its callback again (second conjunct: the log
gains no entry for it); and other observers on the same reactive
continue to be notified (third conjunct: after disposing observer 1,
`set(5)` still invokes observer 2's callback with 5). -/
theorem c9_dispose_semantics (behavior : Nat → List Nat) (w : OWorld) (o : Nat)
    (v x : Val) :
    (lookupObs w.observers o = some ⟨true, false⟩ →
      lookupObs (OWorld.dispose w o).observers o = some ⟨false, true⟩ ∧
      (OWorld.dispose w o).entries = unsubscribe o w.entries) ∧
    (detached w o → ((o, x) ∈ (setO behavior w v).log ↔ (o, x) ∈ w.log)) ∧
    (setO (fun _ => []) (OWorld.dispose c9Two 1) (Val.nat 5)).log =
      [(1, Val.nat 0), (2, Val.nat 0), (2, Val.nat 5)] := by
  refine ⟨?_, ?_, by decide⟩
  · intro hobs
    constructor
    · simp only [OWorld.dispose, hobs]
      exact lookupObs_setObs_self w.observers o _ _ hobs
    · simp [OWorld.dispose, hobs]
  · intro hdet
    unfold setO
    split
    · exact Iff.rfl
    · dsimp only
      exact runOPassFrom_detached_log behavior o w.entries.length 0
        { w with stateValue := v } hdet x

theorem c9_dispose_semantics_witness :
    lookupObs c9Two.observers 1 = some ⟨true, false⟩ ∧
    lookupObs (OWorld.dispose c9Two 1).observers 1 = some ⟨false, true⟩ ∧
    ((1, Val.nat 5) ∈ (setO (fun _ => []) (OWorld.dispose c9Two 1) (Val.nat 5)).log ↔
      (1, Val.nat 5) ∈ (OWorld.dispose c9Two 1).log) := by
  refine ⟨by decide, ?_, ?_⟩
  · exact ((c9_dispose_semantics (fun _ => []) c9Two 1 (Val.nat 5) (Val.nat 5)).1
      (by decide)).1
  · have hdet : detached (OWorld.dispose c9Two 1) 1 := by
      intro obs hobs
      have hl : lookupObs (OWorld.dispose c9Two 1).observers 1 = some ⟨false, true⟩ := by
        decide
      rw [hl] at hobs
      cases hobs
      rfl
    exact (c9_dispose_semantics (fun _ => []) (OWorld.dispose c9Two 1) 1
      (Val.nat 5) (Val.nat 5)).2.1 hdet
